import Mathlib

/-!
# The syncer-addon controller of kcp-ocm

A shallow embedding of `pkg/controllers/addonmanagement/clustermanagementaddons.go`.

One reconciliation pass (`sync`) talks to five collaborators: the lister of the
informer cache, the addon client (`Update`), the client constructors of the kcp
workspace, `resourceapply.ApplyDirectly` and the addon manager.  Their answers
during a pass are collected in an `Env`; every call the pass makes is recorded,
in program order, as an `Effect`.  The only state the controller owns is
`sycnerAddonMap`, which is threaded through explicitly.
-/

set_option autoImplicit false

namespace AddonManagement

/-! ## Data model -/

/-- The constant `cmaddonFinalizer` (line 36). -/
def cmaddonFinalizer : String := "addon.open-cluster-management.io/cleanup"

/-- A non-nil Go `error`.  `notFound` stands for the errors that
`errors.IsNotFound` recognises, `other` for every other error. -/
inductive Error where
  | notFound (msg : String)
  | other (msg : String)
  deriving DecidableEq, Repr

/-- The test `errors.IsNotFound(err)` on a non-nil error. -/
def IsNotFound : Error → Bool
  | .notFound _ => true
  | .other _ => false

/-- A `metav1.Time`, as the distance from the zero instant of `time.Time`. -/
abbrev Time := Int

/-- The method `(*metav1.Time).IsZero`: true on a nil pointer and on the zero instant. -/
def IsZero : Option Time → Bool
  | none => true
  | some t => t == 0

/-- The fields of a `ClusterManagementAddOn` that `sync` reads or writes; `rest`
stands for everything else in the object (spec, status, resource version, ...). -/
structure ClusterManagementAddOn where
  Name : String
  DeletionTimestamp : Option Time
  Finalizers : List String
  rest : String
  deriving DecidableEq, Repr

/-- A `context.CancelFunc`, identified by the context it cancels.  The functions
returned by `context.WithCancel` are never nil. -/
abbrev CancelFunc := Nat

/-- The field `sycnerAddonMap : map[string]context.CancelFunc`, as an association
list.  The controller only ever stores results of `context.WithCancel`, so a
stored value is never nil and `value != nil` is the same as "key present". -/
abbrev SyncerAddonMap := List (String × CancelFunc)

/-- The map read `m[k]`: `none` is Go's nil. -/
def mapGet : SyncerAddonMap → String → Option CancelFunc
  | [], _ => none
  | (k', v) :: m, k => if k' = k then some v else mapGet m k

/-- The builtin `delete(m, k)`. -/
def mapDelete (m : SyncerAddonMap) (k : String) : SyncerAddonMap :=
  m.filter (fun e => decide (e.1 ≠ k))

/-- The map write `m[k] = v`. -/
def mapSet (m : SyncerAddonMap) (k : String) (v : CancelFunc) : SyncerAddonMap :=
  (k, v) :: mapDelete m k

/-- The calls a pass makes to its collaborators. -/
inductive Effect where
  /-- `ClusterManagementAddOns().Update(ctx, obj, ...)` (lines 114 and 158). -/
  | update (obj : ClusterManagementAddOn)
  /-- A call of a stored cancel function (line 122). -/
  | cancel (f : CancelFunc)
  /-- `kubernetes.NewForConfig` for the given host (line 169). -/
  | newKubeClient (host : String)
  /-- `apiextensionsclient.NewForConfig` for the given host (line 174). -/
  | newAPIExtensionsClient (host : String)
  /-- A manifest file handed to the remote applier by `ApplyDirectly`. -/
  | apply (file : String)
  /-- `addonmanager.New` (line 137). -/
  | newManager
  /-- `mgr.AddAgent` for the syncer addon of the given name (lines 138-139). -/
  | addAgent (name : String)
  /-- `mgr.Start(addonCtx)`, where `cancel` cancels `addonCtx` (lines 140-141). -/
  | start (name : String) (cancel : CancelFunc)
  deriving DecidableEq, Repr

/-- What the collaborators answer during one pass. `none` is a nil error. -/
structure Env where
  /-- `clusterManagementAddonLister.Get(name)`. -/
  get : String → Except Error ClusterManagementAddOn
  /-- The error of `Update` for the submitted object. -/
  update : ClusterManagementAddOn → Option Error
  /-- `kcpRestConfig.Host`. -/
  host : String
  /-- The error of `kubernetes.NewForConfig` for a host. -/
  newKubeClient : String → Option Error
  /-- The error of `apiextensionsclient.NewForConfig` for a host. -/
  newAPIExtensionsClient : String → Option Error
  /-- The `Error` field of the `ApplyResult` of a manifest file (reading,
  decoding or applying it failed). -/
  applyFile : String → Option Error
  /-- The error of `addonmanager.New`; the manager itself is taken to be usable,
  as the constructor of the addon framework always returns one. -/
  newManager : Option Error
  /-- The error of `mgr.AddAgent`. -/
  addAgent : Option Error
  /-- The error of `mgr.Start`. -/
  start : Option Error
  /-- The cancel function that `context.WithCancel` returns in this pass. -/
  withCancel : CancelFunc

/-- The outcome of one pass: the returned error, the calls made, in order, and
the map afterwards. -/
structure Pass where
  err : Option Error
  effects : List Effect
  registry : SyncerAddonMap
  deriving DecidableEq, Repr

/-! ## Remote provisioning -/

/-- The file arguments of `ApplyDirectly` (lines 195-200), in order. -/
def manifests : List String :=
  ["manifests/cluster.example.dev_clusters.yaml",
   "manifests/kcp_clusterrole.yaml",
   "manifests/apps_deployments.yaml"]

/-- A `resourceapply.ApplyResult`, reduced to the fields read here. -/
structure ApplyResult where
  File : String
  Error : Option Error
  deriving DecidableEq, Repr

/-- The library function `resourceapply.ApplyDirectly` of openshift/library-go,
which `applyKCPClusterCRD` calls once with all its files: it visits every file
in argument order, appends one result per file and goes on to the next file
whether or not the current one failed; the caller sees nothing before the whole
slice is returned. -/
def ApplyDirectly (applyFile : String → Option Error) :
    List String → List ApplyResult × List Effect
  | [] => ([], [])
  | file :: files =>
    let r := ApplyDirectly applyFile files
    (⟨file, applyFile file⟩ :: r.1, Effect.apply file :: r.2)

/-- The loop of lines 203-207: the error of the first result that has one. -/
def firstError : List ApplyResult → Option Error
  | [] => none
  | result :: results =>
    match result.Error with
    | some e => some e
    | none => firstError results

/-- The method `applyKCPClusterCRD` (lines 165-210): the returned error and the calls made. -/
def applyKCPClusterCRD (env : Env) (workspace : String) : Option Error × List Effect :=
  let host := env.host ++ "/clusters/" ++ workspace
  match env.newKubeClient host with
  | some e => (some e, [Effect.newKubeClient host])
  | none =>
    match env.newAPIExtensionsClient host with
    | some e => (some e, [Effect.newKubeClient host, Effect.newAPIExtensionsClient host])
    | none =>
      let r := ApplyDirectly env.applyFile manifests
      (firstError r.1,
        [Effect.newKubeClient host, Effect.newAPIExtensionsClient host] ++ r.2)

/-! ## The finalizer -/

/-- The loop of lines 105-111. -/
def hasFinalizer : List String → Bool
  | [] => false
  | f :: fs => if f = cmaddonFinalizer then true else hasFinalizer fs

/-- The loop of lines 148-154, with `copiedFinalizers` as accumulator. -/
def copyFinalizers : List String → List String → List String
  | copied, [] => copied
  | copied, f :: fs =>
    if f = cmaddonFinalizer then copyFinalizers copied fs
    else copyFinalizers (copied ++ [f]) fs

/-- The method `removeFinalizer` (lines 147-163). -/
def removeFinalizer (env : Env) (addon : ClusterManagementAddOn) :
    Option Error × List Effect :=
  let copiedFinalizers := copyFinalizers [] addon.Finalizers
  if addon.Finalizers.length ≠ copiedFinalizers.length then
    let addon' := { addon with Finalizers := copiedFinalizers }
    (env.update addon', [Effect.update addon'])
  else
    (none, [])

/-! ## The reconciliation pass -/

/-- Lines 137-142: build the manager, add the agent, start it and store the
cancel function.  None of the three errors is looked at. -/
def startAddonManager (env : Env) (reg : SyncerAddonMap) (cmaddonName : String) :
    List Effect × SyncerAddonMap :=
  let _err := env.newManager
  let _ := env.addAgent
  let _ := env.start
  ([Effect.newManager, Effect.addAgent cmaddonName, Effect.start cmaddonName env.withCancel],
    mapSet reg cmaddonName env.withCancel)

/-- The method `sync` (lines 90-145) for the queue key `cmaddonName`. -/
def sync (env : Env) (reg : SyncerAddonMap) (cmaddonName : String) : Pass :=
  match env.get cmaddonName with
  | .error err => if IsNotFound err then ⟨none, [], reg⟩ else ⟨some err, [], reg⟩
  | .ok cmaddon =>
    if IsZero cmaddon.DeletionTimestamp && !hasFinalizer cmaddon.Finalizers then
      let cmaddon' :=
        { cmaddon with Finalizers := cmaddon.Finalizers ++ [cmaddonFinalizer] }
      ⟨env.update cmaddon', [Effect.update cmaddon'], reg⟩
    else if !IsZero cmaddon.DeletionTimestamp then
      match mapGet reg cmaddonName with
      | some cancel =>
        let r := removeFinalizer env cmaddon
        ⟨r.1, Effect.cancel cancel :: r.2, mapDelete reg cmaddonName⟩
      | none =>
        let r := removeFinalizer env cmaddon
        ⟨r.1, r.2, reg⟩
    else
      let p := applyKCPClusterCRD env cmaddon.Name
      match p.1 with
      | some err => ⟨some err, p.2, reg⟩
      | none =>
        match mapGet reg cmaddon.Name with
        | some _ => ⟨none, p.2, reg⟩
        | none =>
          let s := startAddonManager env reg cmaddonName
          ⟨none, p.2 ++ s.1, s.2⟩

/-! ## Observations on the calls of a pass -/

/-- A call made by `applyKCPClusterCRD`. -/
def Effect.isProvisioning : Effect → Bool
  | .newKubeClient _ => true
  | .newAPIExtensionsClient _ => true
  | .apply _ => true
  | _ => false

/-- A call that brings up an agent (lines 137-141). -/
def Effect.isAgentStart : Effect → Bool
  | .newManager => true
  | .addAgent _ => true
  | .start _ _ => true
  | _ => false

/-- A call of `mgr.Start`. -/
def Effect.isStart : Effect → Bool
  | .start _ _ => true
  | _ => false

/-- A call of `Update`. -/
def Effect.isUpdate : Effect → Bool
  | .update _ => true
  | _ => false

/-- A call of a cancel function. -/
def Effect.isCancel : Effect → Bool
  | .cancel _ => true
  | _ => false

/-- The files handed to the remote applier, in order. -/
def appliedFiles : List Effect → List String
  | [] => []
  | Effect.apply file :: es => file :: appliedFiles es
  | _ :: es => appliedFiles es

/-! ## Sample inputs -/

/-- A resource named `syncer-ws1` with the given deletion timestamp and finalizers. -/
def sampleAddon (ts : Option Time) (fs : List String) : ClusterManagementAddOn :=
  { Name := "syncer-ws1", DeletionTimestamp := ts, Finalizers := fs, rest := "spec" }

/-- A pass in which the lister answers `got`, every call succeeds and
`context.WithCancel` hands out `cancel`. -/
def sampleEnv (got : Except Error ClusterManagementAddOn) (cancel : CancelFunc) : Env :=
  { get := fun _ => got
    update := fun _ => none
    host := "https://kcp"
    newKubeClient := fun _ => none
    newAPIExtensionsClient := fun _ => none
    applyFile := fun _ => none
    newManager := none
    addAgent := none
    start := none
    withCancel := cancel }

/-! ## The resource store between passes -/

/-- The stored object after the store has seen one call of a pass: an `Update`
that the pass was told succeeded replaces the object, anything else leaves it. -/
def storeStep (env : Env) (stored : ClusterManagementAddOn) : Effect → ClusterManagementAddOn
  | Effect.update obj => if env.update obj = none then obj else stored
  | _ => stored

/-- The stored object after the store has seen all calls of a pass. -/
def storeAfter (env : Env) (stored : ClusterManagementAddOn) (effects : List Effect) :
    ClusterManagementAddOn :=
  effects.foldl (storeStep env) stored

/-- The error reported for the first manifest, in the given order, that has one. -/
def firstFailure (applyFile : String → Option Error) : List String → Option Error
  | [] => none
  | file :: files =>
    match applyFile file with
    | some e => some e
    | none => firstFailure applyFile files

/-- A pass in which the lister answers `got`, both clients are built and the
applier reports `answers` for the manifests. -/
def sampleApplyEnv (got : Except Error ClusterManagementAddOn)
    (answers : String → Option Error) : Env :=
  { sampleEnv got 1 with applyFile := answers }

/-- An applier that refuses the cluster role, the second manifest, and accepts
the other two. -/
def refuseClusterRole (file : String) : Option Error :=
  if file = "manifests/kcp_clusterrole.yaml" then some (Error.other "forbidden") else none

/-- Consecutive passes for one queue key: every pass starts from the map the
pass before it left behind; the calls of all passes are collected in order. -/
def syncAll : List Env → SyncerAddonMap → String → List Effect × SyncerAddonMap
  | [], reg, _ => ([], reg)
  | env :: envs, reg, cmaddonName =>
    let p := sync env reg cmaddonName
    let r := syncAll envs p.registry cmaddonName
    (p.effects ++ r.1, r.2)

/-- A pass that reaches line 132: the lister finds the resource under its name,
it is not pending deletion, it carries the marker and provisioning succeeds. -/
def Provisions (env : Env) (cmaddonName : String) : Prop :=
  ∃ cmaddon, env.get cmaddonName = .ok cmaddon ∧ cmaddon.Name = cmaddonName ∧
    IsZero cmaddon.DeletionTimestamp = true ∧ cmaddonFinalizer ∈ cmaddon.Finalizers ∧
    (applyKCPClusterCRD env cmaddon.Name).1 = none

/-- A pass on a provisioned `syncer-ws1` in which `addonmanager.New` and
`mgr.Start` both report an error. -/
def sampleStartFailure : Env :=
  { sampleEnv (.ok (sampleAddon none [cmaddonFinalizer])) 1 with
    newManager := some (Error.other "no manager")
    start := some (Error.other "no client") }

/-! ## Calls of `sync` that overlap

The struct of lines 41-51 holds `sycnerAddonMap` as a plain map, without a lock.
Two calls of `sync` for one name that have both passed provisioning are two
workers over the same map; a step of a worker holds at most one access to the
map: the read of line 133, then lines 137-141, then the write of line 142. -/

/-- Where a call of `sync` stands within lines 133-142. -/
inductive Pc where
  /-- Before the read of the map in line 133. -/
  | check
  /-- Before lines 137-141. -/
  | start
  /-- Before the write of the map in line 142. -/
  | register
  /-- Returned. -/
  | done
  deriving DecidableEq, Repr

/-- One call of `sync`: where it stands, and the cancel function that its
`context.WithCancel` returns. -/
structure Worker where
  pc : Pc
  withCancel : CancelFunc
  deriving DecidableEq, Repr

/-- What the calls share: the map of the controller and the calls made so far. -/
structure Shared where
  registry : SyncerAddonMap
  effects : List Effect
  deriving DecidableEq, Repr

/-- One step of a call for `cmaddonName`. -/
def workerStep (cmaddonName : String) (w : Worker) (s : Shared) : Worker × Shared :=
  match w.pc with
  | Pc.check =>
    match mapGet s.registry cmaddonName with
    | some _ => ({ w with pc := Pc.done }, s)
    | none => ({ w with pc := Pc.start }, s)
  | Pc.start =>
    ({ w with pc := Pc.register },
      { s with effects := s.effects ++ [Effect.newManager, Effect.addAgent cmaddonName,
          Effect.start cmaddonName w.withCancel] })
  | Pc.register =>
    ({ w with pc := Pc.done }, { s with registry := mapSet s.registry cmaddonName w.withCancel })
  | Pc.done => (w, s)

/-- Two calls of `sync` for the same name over the shared map. -/
structure System where
  first : Worker
  second : Worker
  shared : Shared
  deriving DecidableEq, Repr

/-- The scheduler lets one of the two calls take a step: `false` the first,
`true` the second. -/
def systemStep (cmaddonName : String) (sys : System) (who : Bool) : System :=
  if who then
    let r := workerStep cmaddonName sys.second sys.shared
    { sys with second := r.1, shared := r.2 }
  else
    let r := workerStep cmaddonName sys.first sys.shared
    { sys with first := r.1, shared := r.2 }

/-- The system after a schedule. -/
def runSchedule (cmaddonName : String) (sys : System) (schedule : List Bool) : System :=
  schedule.foldl (systemStep cmaddonName) sys

/-- Two calls about to read the map, which holds `reg`. -/
def twoCalls (reg : SyncerAddonMap) (cancel₁ cancel₂ : CancelFunc) : System :=
  { first := ⟨Pc.check, cancel₁⟩, second := ⟨Pc.check, cancel₂⟩, shared := ⟨reg, []⟩ }

/-! ## Facts about the map -/

theorem mapGet_mapDelete_self (m : SyncerAddonMap) (k : String) :
    mapGet (mapDelete m k) k = none := by
  induction m with
  | nil => rfl
  | cons e m ih =>
    obtain ⟨k', v⟩ := e
    by_cases h : k' = k
    · simpa [mapDelete, h] using ih
    · simpa [mapDelete, h, mapGet] using ih

theorem mapGet_mapDelete_of_ne (m : SyncerAddonMap) (k k' : String) (h : k' ≠ k) :
    mapGet (mapDelete m k) k' = mapGet m k' := by
  induction m with
  | nil => rfl
  | cons e m ih =>
    obtain ⟨k'', v⟩ := e
    by_cases h1 : k'' = k
    · subst h1
      have h2 : ¬ k'' = k' := fun h3 => h h3.symm
      simpa [mapDelete, mapGet, h2] using ih
    · by_cases h2 : k'' = k'
      · subst h2
        simp [mapDelete, h1, mapGet]
      · simpa [mapDelete, h1, mapGet, h2] using ih

theorem mapGet_mapSet_self (m : SyncerAddonMap) (k : String) (v : CancelFunc) :
    mapGet (mapSet m k v) k = some v := by
  simp [mapSet, mapGet]

/-! ## Facts about the finalizer loops -/

theorem hasFinalizer_iff (fs : List String) :
    hasFinalizer fs = true ↔ cmaddonFinalizer ∈ fs := by
  induction fs with
  | nil => simp [hasFinalizer]
  | cons f fs ih =>
    by_cases h : f = cmaddonFinalizer
    · simp [hasFinalizer, h]
    · have h' : ¬ cmaddonFinalizer = f := fun h1 => h h1.symm
      simp [hasFinalizer, h, h', ih]

theorem hasFinalizer_eq_false_iff (fs : List String) :
    hasFinalizer fs = false ↔ cmaddonFinalizer ∉ fs := by
  rw [← hasFinalizer_iff]; simp

theorem copyFinalizers_eq (copied fs : List String) :
    copyFinalizers copied fs = copied ++ fs.filter (fun f => decide (f ≠ cmaddonFinalizer)) := by
  induction fs generalizing copied with
  | nil => simp [copyFinalizers]
  | cons f fs ih =>
    by_cases h : f = cmaddonFinalizer
    · simp [copyFinalizers, h, ih]
    · simp [copyFinalizers, h, ih]

theorem length_copyFinalizers_ne_iff (fs : List String) :
    fs.length ≠ (copyFinalizers [] fs).length ↔ cmaddonFinalizer ∈ fs := by
  rw [copyFinalizers_eq, List.nil_append]
  constructor
  · intro h
    by_contra hn
    apply h
    rw [List.filter_eq_self.mpr]
    intro a ha
    have : a ≠ cmaddonFinalizer := fun h1 => hn (h1 ▸ ha)
    simpa using this
  · intro h hlen
    have h1 := List.filter_length_eq_length.mp hlen.symm cmaddonFinalizer h
    simp at h1

/-! ## Facts about provisioning -/

theorem ApplyDirectly_results (applyFile : String → Option Error) (files : List String) :
    (ApplyDirectly applyFile files).1 = files.map (fun f => ⟨f, applyFile f⟩) := by
  induction files with
  | nil => rfl
  | cons f fs ih => simp [ApplyDirectly, ih]

theorem ApplyDirectly_effects (applyFile : String → Option Error) (files : List String) :
    (ApplyDirectly applyFile files).2 = files.map Effect.apply := by
  induction files with
  | nil => rfl
  | cons f fs ih => simp [ApplyDirectly, ih]

theorem applyKCPClusterCRD_effects_provisioning (env : Env) (workspace : String) :
    ∀ e ∈ (applyKCPClusterCRD env workspace).2, e.isProvisioning = true := by
  intro e he
  unfold applyKCPClusterCRD at he
  simp only [] at he
  split at he
  · simp at he; subst he; rfl
  · split at he
    · simp at he; rcases he with he | he <;> subst he <;> rfl
    · rw [ApplyDirectly_effects] at he
      simp at he
      rcases he with he | he | ⟨f, -, he⟩ <;> subst he <;> rfl

theorem removeFinalizer_eq (env : Env) (addon : ClusterManagementAddOn) :
    removeFinalizer env addon =
      if cmaddonFinalizer ∈ addon.Finalizers then
        (env.update { addon with
            Finalizers := addon.Finalizers.filter (fun f => decide (f ≠ cmaddonFinalizer)) },
          [Effect.update { addon with
            Finalizers := addon.Finalizers.filter (fun f => decide (f ≠ cmaddonFinalizer)) }])
      else (none, []) := by
  unfold removeFinalizer
  by_cases h : cmaddonFinalizer ∈ addon.Finalizers
  · have h1 := (length_copyFinalizers_ne_iff addon.Finalizers).mpr h
    simp only [h1, h, if_true, ne_eq, not_false_eq_true]
    rw [copyFinalizers_eq, List.nil_append]
  · have h1 : ¬ addon.Finalizers.length ≠ (copyFinalizers [] addon.Finalizers).length :=
      fun h2 => h ((length_copyFinalizers_ne_iff addon.Finalizers).mp h2)
    simp only [h1, h, if_false]

/-! ## The four branches of a pass -/

theorem sync_of_get_error (env : Env) (reg : SyncerAddonMap) (cmaddonName : String)
    (err : Error) (hg : env.get cmaddonName = .error err) :
    sync env reg cmaddonName =
      if IsNotFound err then ⟨none, [], reg⟩ else ⟨some err, [], reg⟩ := by
  simp only [sync, hg]

theorem sync_of_fresh (env : Env) (reg : SyncerAddonMap) (cmaddonName : String)
    (cmaddon : ClusterManagementAddOn) (hg : env.get cmaddonName = .ok cmaddon)
    (hz : IsZero cmaddon.DeletionTimestamp = true)
    (hf : cmaddonFinalizer ∉ cmaddon.Finalizers) :
    sync env reg cmaddonName =
      ⟨env.update { cmaddon with Finalizers := cmaddon.Finalizers ++ [cmaddonFinalizer] },
        [Effect.update { cmaddon with Finalizers := cmaddon.Finalizers ++ [cmaddonFinalizer] }],
        reg⟩ := by
  have h1 := (hasFinalizer_eq_false_iff cmaddon.Finalizers).mpr hf
  simp [sync, hg, hz, h1]

theorem sync_of_deleting (env : Env) (reg : SyncerAddonMap) (cmaddonName : String)
    (cmaddon : ClusterManagementAddOn) (hg : env.get cmaddonName = .ok cmaddon)
    (hz : IsZero cmaddon.DeletionTimestamp = false) :
    sync env reg cmaddonName =
      match mapGet reg cmaddonName with
      | some cancel =>
        ⟨(removeFinalizer env cmaddon).1, Effect.cancel cancel :: (removeFinalizer env cmaddon).2,
          mapDelete reg cmaddonName⟩
      | none => ⟨(removeFinalizer env cmaddon).1, (removeFinalizer env cmaddon).2, reg⟩ := by
  simp [sync, hg, hz]

theorem sync_of_ready (env : Env) (reg : SyncerAddonMap) (cmaddonName : String)
    (cmaddon : ClusterManagementAddOn) (hg : env.get cmaddonName = .ok cmaddon)
    (hz : IsZero cmaddon.DeletionTimestamp = true)
    (hf : cmaddonFinalizer ∈ cmaddon.Finalizers) :
    sync env reg cmaddonName =
      match (applyKCPClusterCRD env cmaddon.Name).1 with
      | some err => ⟨some err, (applyKCPClusterCRD env cmaddon.Name).2, reg⟩
      | none =>
        match mapGet reg cmaddon.Name with
        | some _ => ⟨none, (applyKCPClusterCRD env cmaddon.Name).2, reg⟩
        | none =>
          ⟨none, (applyKCPClusterCRD env cmaddon.Name).2 ++ (startAddonManager env reg cmaddonName).1,
            (startAddonManager env reg cmaddonName).2⟩ := by
  have h1 := (hasFinalizer_iff cmaddon.Finalizers).mpr hf
  simp [sync, hg, hz, h1]

theorem removeFinalizer_effects_not_provisioning (env : Env) (addon : ClusterManagementAddOn) :
    ∀ e ∈ (removeFinalizer env addon).2, e.isProvisioning = false ∧ e.isAgentStart = false := by
  intro e he
  rw [removeFinalizer_eq] at he
  split at he
  · simp at he; subst he; exact ⟨rfl, rfl⟩
  · simp at he

theorem firstError_ApplyDirectly (applyFile : String → Option Error) (files : List String) :
    firstError (ApplyDirectly applyFile files).1 = firstFailure applyFile files := by
  induction files with
  | nil => rfl
  | cons f fs ih =>
    simp only [ApplyDirectly, firstError, firstFailure]
    cases applyFile f with
    | none => simpa using ih
    | some e => rfl

theorem firstFailure_of_index (applyFile : String → Option Error) (files : List String)
    (i : Nat) (file : String) (err : Error) (hi : files[i]? = some file)
    (he : applyFile file = some err)
    (hj : ∀ j, j < i → ∀ g, files[j]? = some g → applyFile g = none) :
    firstFailure applyFile files = some err := by
  induction files generalizing i with
  | nil => simp at hi
  | cons f fs ih =>
    cases i with
    | zero =>
      simp at hi
      subst hi
      simp [firstFailure, he]
    | succ i =>
      have h0 : applyFile f = none := hj 0 (Nat.succ_pos i) f (by simp)
      simp only [firstFailure, h0]
      apply ih i
      · simpa using hi
      · intro j hlt g hg
        exact hj (j + 1) (Nat.succ_lt_succ hlt) g (by simpa using hg)

theorem applyKCPClusterCRD_of_clients (env : Env) (workspace : String)
    (hk : env.newKubeClient (env.host ++ "/clusters/" ++ workspace) = none)
    (ha : env.newAPIExtensionsClient (env.host ++ "/clusters/" ++ workspace) = none) :
    applyKCPClusterCRD env workspace =
      (firstFailure env.applyFile manifests,
        [Effect.newKubeClient (env.host ++ "/clusters/" ++ workspace),
          Effect.newAPIExtensionsClient (env.host ++ "/clusters/" ++ workspace)] ++
        manifests.map Effect.apply) := by
  simp only [applyKCPClusterCRD, hk, ha, firstError_ApplyDirectly, ApplyDirectly_effects]

theorem sync_of_ready_effects (env : Env) (reg : SyncerAddonMap) (cmaddonName : String)
    (cmaddon : ClusterManagementAddOn) (hg : env.get cmaddonName = .ok cmaddon)
    (hz : IsZero cmaddon.DeletionTimestamp = true)
    (hf : cmaddonFinalizer ∈ cmaddon.Finalizers) :
    ∀ e ∈ (sync env reg cmaddonName).effects,
      e.isProvisioning = true ∨ e.isAgentStart = true := by
  intro e he
  rw [sync_of_ready env reg cmaddonName cmaddon hg hz hf] at he
  have hp := applyKCPClusterCRD_effects_provisioning env cmaddon.Name
  split at he
  · exact Or.inl (hp e he)
  · split at he
    · exact Or.inl (hp e he)
    · simp only [startAddonManager, List.mem_append, List.mem_cons, List.mem_singleton,
        List.not_mem_nil, or_false] at he
      rcases he with he | he | he | he
      · exact Or.inl (hp e he)
      all_goals subst he; exact Or.inr rfl

theorem sync_of_failed_provisioning (env : Env) (reg : SyncerAddonMap) (cmaddonName : String)
    (cmaddon : ClusterManagementAddOn) (err : Error)
    (hg : env.get cmaddonName = .ok cmaddon)
    (hz : IsZero cmaddon.DeletionTimestamp = true)
    (hf : cmaddonFinalizer ∈ cmaddon.Finalizers)
    (hp : (applyKCPClusterCRD env cmaddon.Name).1 = some err) :
    sync env reg cmaddonName = ⟨some err, (applyKCPClusterCRD env cmaddon.Name).2, reg⟩ := by
  rw [sync_of_ready env reg cmaddonName cmaddon hg hz hf, hp]

theorem storeAfter_of_no_update (env : Env) (stored : ClusterManagementAddOn)
    (effects : List Effect) (h : ∀ e ∈ effects, e.isUpdate = false) :
    storeAfter env stored effects = stored := by
  induction effects with
  | nil => rfl
  | cons e es ih =>
    have he : e.isUpdate = false := h e (by simp)
    have hes : ∀ e' ∈ es, e'.isUpdate = false := fun e' he' => h e' (by simp [he'])
    have hstep : storeStep env stored e = stored := by
      cases e <;> simp [Effect.isUpdate] at he <;> rfl
    simpa [storeAfter, hstep] using ih hes

theorem isStart_false_of_isProvisioning (e : Effect) (h : e.isProvisioning = true) :
    e.isStart = false ∧ e.isAgentStart = false := by
  cases e <;> simp [Effect.isProvisioning] at h <;> exact ⟨rfl, rfl⟩

theorem sync_of_registered (env : Env) (reg : SyncerAddonMap) (cmaddonName : String)
    (cancel : CancelFunc) (hp : Provisions env cmaddonName)
    (hreg : mapGet reg cmaddonName = some cancel) :
    ∃ effects, sync env reg cmaddonName = ⟨none, effects, reg⟩ ∧
      ∀ e ∈ effects, e.isProvisioning = true := by
  obtain ⟨cmaddon, hg, hn, hz, hf, hok⟩ := hp
  subst hn
  refine ⟨(applyKCPClusterCRD env cmaddon.Name).2, ?_,
    applyKCPClusterCRD_effects_provisioning env cmaddon.Name⟩
  rw [sync_of_ready env reg cmaddon.Name cmaddon hg hz hf, hok, hreg]

theorem sync_of_unregistered (env : Env) (reg : SyncerAddonMap) (cmaddonName : String)
    (hp : Provisions env cmaddonName) (hreg : mapGet reg cmaddonName = none) :
    ∃ effects, sync env reg cmaddonName =
        ⟨none, effects ++ [Effect.newManager, Effect.addAgent cmaddonName,
          Effect.start cmaddonName env.withCancel], mapSet reg cmaddonName env.withCancel⟩ ∧
      ∀ e ∈ effects, e.isProvisioning = true := by
  obtain ⟨cmaddon, hg, hn, hz, hf, hok⟩ := hp
  subst hn
  refine ⟨(applyKCPClusterCRD env cmaddon.Name).2, ?_,
    applyKCPClusterCRD_effects_provisioning env cmaddon.Name⟩
  rw [sync_of_ready env reg cmaddon.Name cmaddon hg hz hf, hok, hreg]
  rfl

theorem filter_isStart_of_provisioning (effects : List Effect)
    (h : ∀ e ∈ effects, e.isProvisioning = true) :
    effects.filter Effect.isStart = [] ∧ effects.filter Effect.isAgentStart = [] := by
  constructor <;> apply List.filter_eq_nil_iff.mpr <;> intro e he
  · simp [(isStart_false_of_isProvisioning e (h e he)).1]
  · simp [(isStart_false_of_isProvisioning e (h e he)).2]

theorem syncAll_of_registered (envs : List Env) (reg : SyncerAddonMap) (cmaddonName : String)
    (cancel : CancelFunc) (hreg : mapGet reg cmaddonName = some cancel)
    (hall : ∀ env ∈ envs, Provisions env cmaddonName) :
    (syncAll envs reg cmaddonName).2 = reg ∧
    (syncAll envs reg cmaddonName).1.filter Effect.isStart = [] := by
  induction envs with
  | nil => exact ⟨rfl, rfl⟩
  | cons env envs ih =>
    obtain ⟨effects, hs, hprov⟩ :=
      sync_of_registered env reg cmaddonName cancel (hall env (by simp)) hreg
    have ih' := ih (fun env' he' => hall env' (by simp [he']))
    simp only [syncAll, hs]
    refine ⟨ih'.1, ?_⟩
    rw [List.filter_append, (filter_isStart_of_provisioning effects hprov).1, ih'.2]
    rfl

/-! ## The claims -/

/-- C1. Finalizer before provisioning: whatever the lister answers and whatever
the map holds, a pass makes a provisioning call only if the fetched resource is
not pending deletion and already carries the cleanup marker.  A pass on a
resource that is not pending deletion and lacks the marker makes exactly one
call, the update that appends the marker, returns the error of that update and
leaves the map as it was: no provisioning, no agent start. -/
theorem sync_finalizer_before_provisioning (env : Env) (reg : SyncerAddonMap)
    (cmaddonName : String) :
    ((∃ e ∈ (sync env reg cmaddonName).effects, e.isProvisioning = true) →
      ∃ cmaddon, env.get cmaddonName = .ok cmaddon ∧
        IsZero cmaddon.DeletionTimestamp = true ∧
        cmaddonFinalizer ∈ cmaddon.Finalizers) ∧
    (∀ cmaddon, env.get cmaddonName = .ok cmaddon →
      IsZero cmaddon.DeletionTimestamp = true →
      cmaddonFinalizer ∉ cmaddon.Finalizers →
      sync env reg cmaddonName =
        ⟨env.update { cmaddon with Finalizers := cmaddon.Finalizers ++ [cmaddonFinalizer] },
          [Effect.update
            { cmaddon with Finalizers := cmaddon.Finalizers ++ [cmaddonFinalizer] }],
          reg⟩ ∧
      (∀ e ∈ (sync env reg cmaddonName).effects,
        e.isProvisioning = false ∧ e.isAgentStart = false)) := by
  refine ⟨?_, ?_⟩
  · rintro ⟨e, he, hp⟩
    cases hg : env.get cmaddonName with
    | error err =>
      rw [sync_of_get_error env reg cmaddonName err hg] at he
      split at he <;> simp at he
    | ok cmaddon =>
      refine ⟨cmaddon, rfl, ?_⟩
      cases hz : IsZero cmaddon.DeletionTimestamp with
      | false =>
        exfalso
        rw [sync_of_deleting env reg cmaddonName cmaddon hg hz] at he
        have hr := removeFinalizer_effects_not_provisioning env cmaddon
        split at he
        · simp only [List.mem_cons] at he
          rcases he with he | he
          · subst he; simp [Effect.isProvisioning] at hp
          · rw [(hr e he).1] at hp; cases hp
        · rw [(hr e he).1] at hp; cases hp
      | true =>
        refine ⟨rfl, ?_⟩
        by_contra hf
        rw [sync_of_fresh env reg cmaddonName cmaddon hg hz hf] at he
        simp at he
        subst he
        simp [Effect.isProvisioning] at hp
  · intro cmaddon hg hz hf
    rw [sync_of_fresh env reg cmaddonName cmaddon hg hz hf]
    refine ⟨rfl, ?_⟩
    intro e he
    simp at he
    subst he
    exact ⟨rfl, rfl⟩

/-- C1 on a fresh `syncer-ws1`: the only call is the update that adds the marker. -/
theorem sync_finalizer_before_provisioning_witness :
    sync (sampleEnv (.ok (sampleAddon none [])) 1) [] "syncer-ws1" =
      ⟨none, [Effect.update (sampleAddon none [cmaddonFinalizer])], []⟩ :=
  ((sync_finalizer_before_provisioning (sampleEnv (.ok (sampleAddon none [])) 1) []
    "syncer-ws1").2 (sampleAddon none []) rfl rfl (by simp [sampleAddon])).1

/-- C8. Not found is success: when the lister answers with a not-found error the
pass returns no error, makes no call at all (no update, no provisioning, no agent
start, no cancellation) and leaves the map as it was; when the lister answers
with any other error the pass returns that error, again without any call and
with the map as it was. -/
theorem sync_not_found_is_success (env : Env) (reg : SyncerAddonMap)
    (cmaddonName : String) (err : Error) (hg : env.get cmaddonName = .error err) :
    (IsNotFound err = true → sync env reg cmaddonName = ⟨none, [], reg⟩) ∧
    (IsNotFound err = false → sync env reg cmaddonName = ⟨some err, [], reg⟩) := by
  rw [sync_of_get_error env reg cmaddonName err hg]
  constructor <;> intro h <;> simp [h]

/-- C8 on a vanished `syncer-ws1` and on a lister that times out, with an agent
registered for another workspace. -/
theorem sync_not_found_is_success_witness :
    sync (sampleEnv (.error (.notFound "syncer-ws1")) 1) [("syncer-ws2", 5)] "syncer-ws1" =
        ⟨none, [], [("syncer-ws2", 5)]⟩ ∧
    sync (sampleEnv (.error (.other "timeout")) 1) [("syncer-ws2", 5)] "syncer-ws1" =
        ⟨some (.other "timeout"), [], [("syncer-ws2", 5)]⟩ :=
  ⟨(sync_not_found_is_success (sampleEnv (.error (.notFound "syncer-ws1")) 1)
      [("syncer-ws2", 5)] "syncer-ws1" (.notFound "syncer-ws1") rfl).1 rfl,
   (sync_not_found_is_success (sampleEnv (.error (.other "timeout")) 1)
      [("syncer-ws2", 5)] "syncer-ws1" (.other "timeout") rfl).2 rfl⟩

/-- C9. The reconciler mutates only its own marker: every update a pass issues
carries the fetched resource with nothing but its finalizers changed; on the
attach path the new finalizers are the old list followed by the marker, on the
deletion path they are the old list without any occurrence of the marker, the
other finalizers in their original order.  `removeFinalizer` issues its update
exactly when the marker is present, so `removeFinalizer` on the object it has
just written issues no update and returns no error. -/
theorem sync_updates_only_finalizers (env env' : Env) (reg : SyncerAddonMap)
    (cmaddonName : String) (addon : ClusterManagementAddOn) :
    (∀ obj, Effect.update obj ∈ (sync env reg cmaddonName).effects →
      ∃ cmaddon, env.get cmaddonName = .ok cmaddon ∧
        obj.Name = cmaddon.Name ∧ obj.DeletionTimestamp = cmaddon.DeletionTimestamp ∧
        obj.rest = cmaddon.rest ∧
        (IsZero cmaddon.DeletionTimestamp = true →
          obj.Finalizers = cmaddon.Finalizers ++ [cmaddonFinalizer]) ∧
        (IsZero cmaddon.DeletionTimestamp = false →
          obj.Finalizers =
            cmaddon.Finalizers.filter (fun f => decide (f ≠ cmaddonFinalizer)))) ∧
    removeFinalizer env addon =
      (if cmaddonFinalizer ∈ addon.Finalizers then
        (env.update { addon with
            Finalizers := addon.Finalizers.filter (fun f => decide (f ≠ cmaddonFinalizer)) },
          [Effect.update { addon with
            Finalizers := addon.Finalizers.filter (fun f => decide (f ≠ cmaddonFinalizer)) }])
      else (none, [])) ∧
    removeFinalizer env' { addon with
        Finalizers := addon.Finalizers.filter (fun f => decide (f ≠ cmaddonFinalizer)) } =
      (none, []) := by
  refine ⟨?_, removeFinalizer_eq env addon, ?_⟩
  · intro obj hobj
    cases hg : env.get cmaddonName with
    | error err =>
      rw [sync_of_get_error env reg cmaddonName err hg] at hobj
      split at hobj <;> simp at hobj
    | ok cmaddon =>
      refine ⟨cmaddon, rfl, ?_⟩
      cases hz : IsZero cmaddon.DeletionTimestamp with
      | false =>
        rw [sync_of_deleting env reg cmaddonName cmaddon hg hz] at hobj
        have hrem : Effect.update obj ∈ (removeFinalizer env cmaddon).2 := by
          split at hobj
          · simpa using hobj
          · exact hobj
        rw [removeFinalizer_eq] at hrem
        split at hrem
        · simp at hrem
          subst hrem
          simp
        · simp at hrem
      | true =>
        by_cases hf : cmaddonFinalizer ∈ cmaddon.Finalizers
        · exfalso
          rw [sync_of_ready env reg cmaddonName cmaddon hg hz hf] at hobj
          have hp := applyKCPClusterCRD_effects_provisioning env cmaddon.Name
          have hnot : Effect.update obj ∉ (applyKCPClusterCRD env cmaddon.Name).2 := by
            intro hmem
            have := hp _ hmem
            simp [Effect.isProvisioning] at this
          split at hobj
          · exact hnot hobj
          · split at hobj
            · exact hnot hobj
            · simp [startAddonManager] at hobj
              exact hnot hobj
        · rw [sync_of_fresh env reg cmaddonName cmaddon hg hz hf] at hobj
          simp at hobj
          subst hobj
          simp
  · rw [removeFinalizer_eq]
    simp

/-- C9 on a deleting `syncer-ws1` with a foreign finalizer on either side of the
marker: the one update keeps both foreign finalizers, in order. -/
theorem sync_updates_only_finalizers_witness :
    ∃ cmaddon,
      (sampleEnv (.ok (sampleAddon (some 7) ["a", cmaddonFinalizer, "b"])) 1).get "syncer-ws1" =
        .ok cmaddon ∧
      (sampleAddon (some 7) ["a", "b"]).Name = cmaddon.Name ∧
      (sampleAddon (some 7) ["a", "b"]).DeletionTimestamp = cmaddon.DeletionTimestamp ∧
      (sampleAddon (some 7) ["a", "b"]).rest = cmaddon.rest ∧
      (IsZero cmaddon.DeletionTimestamp = true →
        (sampleAddon (some 7) ["a", "b"]).Finalizers =
          cmaddon.Finalizers ++ [cmaddonFinalizer]) ∧
      (IsZero cmaddon.DeletionTimestamp = false →
        (sampleAddon (some 7) ["a", "b"]).Finalizers =
          cmaddon.Finalizers.filter (fun f => decide (f ≠ cmaddonFinalizer))) :=
  (sync_updates_only_finalizers
    (sampleEnv (.ok (sampleAddon (some 7) ["a", cmaddonFinalizer, "b"])) 1)
    (sampleEnv (.ok (sampleAddon (some 7) ["a", cmaddonFinalizer, "b"])) 1)
    [] "syncer-ws1" (sampleAddon (some 7) ["a", cmaddonFinalizer, "b"])).1
    (sampleAddon (some 7) ["a", "b"]) (by decide)

/-- C2. Deletion cancels before clearing: for a resource that is pending
deletion, carries the marker and has a cancel function stored under its name, a
pass makes exactly two calls, first the stored cancel function, then the update
that removes the marker; it returns the error of that update, the map afterwards
is the old one without the entry of that name (other names keep their entry),
and no provisioning call and no agent start occur. -/
theorem sync_deletion_cancels_before_clearing (env : Env) (reg : SyncerAddonMap)
    (cmaddonName : String) (cmaddon : ClusterManagementAddOn) (cancel : CancelFunc)
    (hg : env.get cmaddonName = .ok cmaddon) (hn : cmaddon.Name = cmaddonName)
    (hz : IsZero cmaddon.DeletionTimestamp = false)
    (hf : cmaddonFinalizer ∈ cmaddon.Finalizers)
    (hreg : mapGet reg cmaddon.Name = some cancel) :
    sync env reg cmaddonName =
      ⟨env.update { cmaddon with
          Finalizers := cmaddon.Finalizers.filter (fun f => decide (f ≠ cmaddonFinalizer)) },
        [Effect.cancel cancel,
          Effect.update { cmaddon with
            Finalizers := cmaddon.Finalizers.filter (fun f => decide (f ≠ cmaddonFinalizer)) }],
        mapDelete reg cmaddon.Name⟩ ∧
    ((sync env reg cmaddonName).effects.filter Effect.isCancel).length = 1 ∧
    mapGet (sync env reg cmaddonName).registry cmaddon.Name = none ∧
    (∀ k, k ≠ cmaddon.Name → mapGet (sync env reg cmaddonName).registry k = mapGet reg k) ∧
    (∀ e ∈ (sync env reg cmaddonName).effects,
      e.isProvisioning = false ∧ e.isAgentStart = false) := by
  subst hn
  have hs : sync env reg cmaddon.Name =
      ⟨env.update { cmaddon with
          Finalizers := cmaddon.Finalizers.filter (fun f => decide (f ≠ cmaddonFinalizer)) },
        [Effect.cancel cancel,
          Effect.update { cmaddon with
            Finalizers := cmaddon.Finalizers.filter (fun f => decide (f ≠ cmaddonFinalizer)) }],
        mapDelete reg cmaddon.Name⟩ := by
    rw [sync_of_deleting env reg cmaddon.Name cmaddon hg hz, hreg, removeFinalizer_eq]
    simp [hf]
  rw [hs]
  refine ⟨rfl, ?_, mapGet_mapDelete_self reg cmaddon.Name,
    fun k hk => mapGet_mapDelete_of_ne reg cmaddon.Name k hk, ?_⟩
  · simp [List.filter, Effect.isCancel]
  · intro e he
    simp at he
    rcases he with he | he <;> subst he <;> exact ⟨rfl, rfl⟩

/-- C2 on a deleting `syncer-ws1` whose agent has cancel function 4: the cancel
comes first, then the update that drops the marker, and the map is left empty. -/
theorem sync_deletion_cancels_before_clearing_witness :
    sync (sampleEnv (.ok (sampleAddon (some 7) [cmaddonFinalizer])) 1)
        [("syncer-ws1", 4)] "syncer-ws1" =
      ⟨none, [Effect.cancel 4, Effect.update (sampleAddon (some 7) [])], []⟩ :=
  (sync_deletion_cancels_before_clearing
    (sampleEnv (.ok (sampleAddon (some 7) [cmaddonFinalizer])) 1) [("syncer-ws1", 4)]
    "syncer-ws1" (sampleAddon (some 7) [cmaddonFinalizer]) 4 rfl rfl rfl
    (by simp [sampleAddon]) (by decide)).1

/-- C3. Provisioning failure starts no agent: for a resource that is not pending
deletion and carries the marker, if building the kube client fails, or building
the API-extensions client fails, or some manifest fails to apply, the pass
returns an error, namely the error of the first client that could not be built
or otherwise the error of the first failing manifest in declaration order; it
starts no agent and leaves the map exactly as it was. -/
theorem sync_provisioning_failure_starts_no_agent (env : Env) (reg : SyncerAddonMap)
    (cmaddonName : String) (cmaddon : ClusterManagementAddOn) (err : Error)
    (hg : env.get cmaddonName = .ok cmaddon)
    (hz : IsZero cmaddon.DeletionTimestamp = true)
    (hf : cmaddonFinalizer ∈ cmaddon.Finalizers)
    (hfail :
      env.newKubeClient (env.host ++ "/clusters/" ++ cmaddon.Name) = some err ∨
      (env.newKubeClient (env.host ++ "/clusters/" ++ cmaddon.Name) = none ∧
        env.newAPIExtensionsClient (env.host ++ "/clusters/" ++ cmaddon.Name) = some err) ∨
      (env.newKubeClient (env.host ++ "/clusters/" ++ cmaddon.Name) = none ∧
        env.newAPIExtensionsClient (env.host ++ "/clusters/" ++ cmaddon.Name) = none ∧
        ∃ (i : Nat) (file : String), manifests[i]? = some file ∧
          env.applyFile file = some err ∧
          ∀ (j : Nat), j < i → ∀ g, manifests[j]? = some g → env.applyFile g = none)) :
    (sync env reg cmaddonName).err = some err ∧
    (∀ e ∈ (sync env reg cmaddonName).effects, e.isAgentStart = false) ∧
    (sync env reg cmaddonName).registry = reg := by
  have hp : (applyKCPClusterCRD env cmaddon.Name).1 = some err := by
    rcases hfail with hk | ⟨hk, ha⟩ | ⟨hk, ha, i, file, hi, he, hj⟩
    · simp only [applyKCPClusterCRD, hk]
    · simp only [applyKCPClusterCRD, hk, ha]
    · rw [applyKCPClusterCRD_of_clients env cmaddon.Name hk ha]
      exact firstFailure_of_index env.applyFile manifests i file err hi he hj
  rw [sync_of_failed_provisioning env reg cmaddonName cmaddon err hg hz hf hp]
  refine ⟨rfl, ?_, rfl⟩
  intro e he
  have := applyKCPClusterCRD_effects_provisioning env cmaddon.Name e he
  cases e <;> simp [Effect.isProvisioning] at this <;> rfl

/-- C3 on `syncer-ws1` when the cluster role, the second manifest, is refused:
the pass returns that error and the agent registered for `syncer-ws2` is all the
map holds afterwards. -/
theorem sync_provisioning_failure_starts_no_agent_witness :
    (sync (sampleApplyEnv (.ok (sampleAddon none [cmaddonFinalizer]))
        (fun f => if f = "manifests/kcp_clusterrole.yaml" then some (.other "forbidden")
          else none)) [("syncer-ws2", 5)] "syncer-ws1").err = some (.other "forbidden") ∧
    (∀ e ∈ (sync (sampleApplyEnv (.ok (sampleAddon none [cmaddonFinalizer]))
        (fun f => if f = "manifests/kcp_clusterrole.yaml" then some (.other "forbidden")
          else none)) [("syncer-ws2", 5)] "syncer-ws1").effects, e.isAgentStart = false) ∧
    (sync (sampleApplyEnv (.ok (sampleAddon none [cmaddonFinalizer]))
        (fun f => if f = "manifests/kcp_clusterrole.yaml" then some (.other "forbidden")
          else none)) [("syncer-ws2", 5)] "syncer-ws1").registry = [("syncer-ws2", 5)] :=
  sync_provisioning_failure_starts_no_agent
    (sampleApplyEnv (.ok (sampleAddon none [cmaddonFinalizer]))
      (fun f => if f = "manifests/kcp_clusterrole.yaml" then some (.other "forbidden")
        else none))
    [("syncer-ws2", 5)] "syncer-ws1" (sampleAddon none [cmaddonFinalizer])
    (.other "forbidden") rfl rfl (by simp [sampleAddon])
    (Or.inr (Or.inr ⟨rfl, rfl, 1, "manifests/kcp_clusterrole.yaml", rfl, by decide,
      by
        intro j hj g hg
        obtain rfl : j = 0 := by omega
        simp [manifests] at hg
        subst hg
        decide⟩))

/-- C4, as stated, fails: with both clients built and the second manifest
refused, the third manifest, `manifests/apps_deployments.yaml`, is still handed
to the remote applier, and the refusal is what the call returns. -/
theorem applyKCPClusterCRD_third_manifest_after_failure :
    refuseClusterRole "manifests/kcp_clusterrole.yaml" = some (Error.other "forbidden") ∧
    appliedFiles (applyKCPClusterCRD
        (sampleApplyEnv (.ok (sampleAddon none [cmaddonFinalizer])) refuseClusterRole)
        "syncer-ws1").2 =
      ["manifests/cluster.example.dev_clusters.yaml", "manifests/kcp_clusterrole.yaml",
        "manifests/apps_deployments.yaml"] ∧
    (applyKCPClusterCRD
        (sampleApplyEnv (.ok (sampleAddon none [cmaddonFinalizer])) refuseClusterRole)
        "syncer-ws1").1 = some (Error.other "forbidden") := by
  decide

/-- C4, amended. Once both clients are built, `applyKCPClusterCRD` hands the
three manifests to the remote applier in declaration order in one
`ApplyDirectly` call, all three whatever the applier answers for the earlier
ones; the call returns the error of the first manifest in declaration order that
failed, and no error when none failed. -/
theorem applyKCPClusterCRD_submits_every_manifest (env : Env) (workspace : String)
    (hk : env.newKubeClient (env.host ++ "/clusters/" ++ workspace) = none)
    (ha : env.newAPIExtensionsClient (env.host ++ "/clusters/" ++ workspace) = none) :
    appliedFiles (applyKCPClusterCRD env workspace).2 =
      ["manifests/cluster.example.dev_clusters.yaml", "manifests/kcp_clusterrole.yaml",
        "manifests/apps_deployments.yaml"] ∧
    (∀ (i : Nat) (file : String) (err : Error), manifests[i]? = some file →
      env.applyFile file = some err →
      (∀ (j : Nat), j < i → ∀ g, manifests[j]? = some g → env.applyFile g = none) →
      (applyKCPClusterCRD env workspace).1 = some err) ∧
    ((∀ file ∈ manifests, env.applyFile file = none) →
      (applyKCPClusterCRD env workspace).1 = none) := by
  rw [applyKCPClusterCRD_of_clients env workspace hk ha]
  refine ⟨?_, ?_, ?_⟩
  · simp [appliedFiles, manifests]
  · intro i file err hi he hj
    exact firstFailure_of_index env.applyFile manifests i file err hi he hj
  · intro hall
    have h1 := hall "manifests/cluster.example.dev_clusters.yaml" (by simp [manifests])
    have h2 := hall "manifests/kcp_clusterrole.yaml" (by simp [manifests])
    have h3 := hall "manifests/apps_deployments.yaml" (by simp [manifests])
    simp [manifests, firstFailure, h1, h2, h3]

/-- C4, amended, on `syncer-ws1` with an applier that refuses the first manifest:
the second and third manifests are submitted all the same. -/
theorem applyKCPClusterCRD_submits_every_manifest_witness :
    appliedFiles (applyKCPClusterCRD
        (sampleApplyEnv (.ok (sampleAddon none [cmaddonFinalizer]))
          (fun f => if f = "manifests/cluster.example.dev_clusters.yaml"
            then some (Error.other "conflict") else none))
        "syncer-ws1").2 =
      ["manifests/cluster.example.dev_clusters.yaml", "manifests/kcp_clusterrole.yaml",
        "manifests/apps_deployments.yaml"] :=
  (applyKCPClusterCRD_submits_every_manifest
    (sampleApplyEnv (.ok (sampleAddon none [cmaddonFinalizer]))
      (fun f => if f = "manifests/cluster.example.dev_clusters.yaml"
        then some (Error.other "conflict") else none))
    "syncer-ws1" rfl rfl).1

/-- C7. Idempotent finalizer attach: take a resource that is not pending deletion
and lacks the marker, run a pass whose update succeeds, let the store apply that
update, and run a second pass on what the store then holds.  The first pass
issues exactly one call, the update that appends the marker; the second pass
issues no update; the two passes together issue exactly one update; and the
stored resource after both passes carries the marker exactly once. -/
theorem sync_twice_attaches_once (env₁ env₂ : Env) (reg : SyncerAddonMap)
    (cmaddonName : String) (cmaddon : ClusterManagementAddOn)
    (hg₁ : env₁.get cmaddonName = .ok cmaddon)
    (hz : IsZero cmaddon.DeletionTimestamp = true)
    (hf : cmaddonFinalizer ∉ cmaddon.Finalizers)
    (hu : env₁.update
      { cmaddon with Finalizers := cmaddon.Finalizers ++ [cmaddonFinalizer] } = none)
    (hg₂ : env₂.get cmaddonName =
      .ok (storeAfter env₁ cmaddon (sync env₁ reg cmaddonName).effects)) :
    (sync env₁ reg cmaddonName).effects =
      [Effect.update { cmaddon with Finalizers := cmaddon.Finalizers ++ [cmaddonFinalizer] }] ∧
    (∀ e ∈ (sync env₂ (sync env₁ reg cmaddonName).registry cmaddonName).effects,
      e.isUpdate = false) ∧
    (((sync env₁ reg cmaddonName).effects ++
        (sync env₂ (sync env₁ reg cmaddonName).registry cmaddonName).effects).filter
      Effect.isUpdate).length = 1 ∧
    (storeAfter env₂ (storeAfter env₁ cmaddon (sync env₁ reg cmaddonName).effects)
      (sync env₂ (sync env₁ reg cmaddonName).registry cmaddonName).effects).Finalizers.count
        cmaddonFinalizer = 1 := by
  have hs := sync_of_fresh env₁ reg cmaddonName cmaddon hg₁ hz hf
  rw [hs] at hg₂ ⊢
  have hstore : storeAfter env₁ cmaddon
      [Effect.update { cmaddon with Finalizers := cmaddon.Finalizers ++ [cmaddonFinalizer] }] =
      { cmaddon with Finalizers := cmaddon.Finalizers ++ [cmaddonFinalizer] } := by
    simp [storeAfter, storeStep, hu]
  rw [hstore] at hg₂
  have hno : ∀ e ∈ (sync env₂ reg cmaddonName).effects, e.isUpdate = false := by
    intro e he
    have h := sync_of_ready_effects env₂ reg cmaddonName _ hg₂ hz (by simp) e he
    cases e <;> simp [Effect.isProvisioning, Effect.isAgentStart] at h <;> rfl
  have hnil : (sync env₂ reg cmaddonName).effects.filter Effect.isUpdate = [] :=
    List.filter_eq_nil_iff.mpr (fun e he => by simp [hno e he])
  refine ⟨rfl, hno, ?_, ?_⟩
  · show (List.filter Effect.isUpdate (_ ++ (sync env₂ reg cmaddonName).effects)).length = 1
    rw [List.filter_append, hnil]
    simp [Effect.isUpdate]
  · show (storeAfter env₂ (storeAfter env₁ cmaddon _)
      (sync env₂ reg cmaddonName).effects).Finalizers.count cmaddonFinalizer = 1
    rw [hstore, storeAfter_of_no_update env₂ _ _ hno]
    simp [List.count_eq_zero_of_not_mem hf]

/-- C7 on a fresh `syncer-ws1`: one update in the first pass, none in the second. -/
theorem sync_twice_attaches_once_witness :
    ((sync (sampleEnv (.ok (sampleAddon none [])) 1) [] "syncer-ws1").effects ++
      (sync (sampleEnv (.ok (sampleAddon none [cmaddonFinalizer])) 2)
        (sync (sampleEnv (.ok (sampleAddon none [])) 1) [] "syncer-ws1").registry
        "syncer-ws1").effects).filter Effect.isUpdate =
      [Effect.update (sampleAddon none [cmaddonFinalizer])] ∧
    (((sync (sampleEnv (.ok (sampleAddon none [])) 1) [] "syncer-ws1").effects ++
      (sync (sampleEnv (.ok (sampleAddon none [cmaddonFinalizer])) 2)
        (sync (sampleEnv (.ok (sampleAddon none [])) 1) [] "syncer-ws1").registry
        "syncer-ws1").effects).filter Effect.isUpdate).length = 1 :=
  ⟨by decide,
   (sync_twice_attaches_once (sampleEnv (.ok (sampleAddon none [])) 1)
    (sampleEnv (.ok (sampleAddon none [cmaddonFinalizer])) 2) [] "syncer-ws1"
    (sampleAddon none []) rfl rfl (by simp [sampleAddon]) rfl rfl).2.2.1⟩

/-- C5. At most one agent per target over repeated passes: take passes that find
the resource under its name, not pending deletion, with the marker, and whose
provisioning succeeds.  Such a pass with a cancel function already stored under
the name starts no agent and leaves the map as it was; such a pass with nothing
stored under the name builds, adds and starts exactly one agent and stores the
cancel function of this pass under the name.  Hence any non-empty sequence of
such passes for one name, begun with the empty map, makes exactly one `Start`
call and ends with a map that has exactly one entry for the name. -/
theorem sync_at_most_one_agent (env : Env) (envs : List Env) (reg : SyncerAddonMap)
    (cmaddonName : String) :
    (∀ cancel, Provisions env cmaddonName → mapGet reg cmaddonName = some cancel →
      (sync env reg cmaddonName).err = none ∧
      (sync env reg cmaddonName).registry = reg ∧
      ∀ e ∈ (sync env reg cmaddonName).effects, e.isAgentStart = false) ∧
    (Provisions env cmaddonName → mapGet reg cmaddonName = none →
      (sync env reg cmaddonName).err = none ∧
      (sync env reg cmaddonName).effects.filter Effect.isAgentStart =
        [Effect.newManager, Effect.addAgent cmaddonName,
          Effect.start cmaddonName env.withCancel] ∧
      ((sync env reg cmaddonName).effects.filter Effect.isStart).length = 1 ∧
      (sync env reg cmaddonName).registry = mapSet reg cmaddonName env.withCancel ∧
      mapGet (sync env reg cmaddonName).registry cmaddonName = some env.withCancel) ∧
    (1 ≤ envs.length → (∀ env' ∈ envs, Provisions env' cmaddonName) →
      ((syncAll envs [] cmaddonName).1.filter Effect.isStart).length = 1 ∧
      ((syncAll envs [] cmaddonName).2.filter
        (fun entry => decide (entry.1 = cmaddonName))).length = 1) := by
  refine ⟨?_, ?_, ?_⟩
  · intro cancel hp hreg
    obtain ⟨effects, hs, hprov⟩ := sync_of_registered env reg cmaddonName cancel hp hreg
    rw [hs]
    exact ⟨rfl, rfl, fun e he => (isStart_false_of_isProvisioning e (hprov e he)).2⟩
  · intro hp hreg
    obtain ⟨effects, hs, hprov⟩ := sync_of_unregistered env reg cmaddonName hp hreg
    rw [hs]
    refine ⟨rfl, ?_, ?_, rfl, mapGet_mapSet_self reg cmaddonName env.withCancel⟩
    · show List.filter Effect.isAgentStart (effects ++ _) = _
      rw [List.filter_append, (filter_isStart_of_provisioning effects hprov).2]
      rfl
    · show (List.filter Effect.isStart (effects ++ _)).length = 1
      rw [List.filter_append, (filter_isStart_of_provisioning effects hprov).1]
      rfl
  · intro hlen hall
    cases envs with
    | nil => simp at hlen
    | cons env₀ envs =>
      obtain ⟨effects, hs, hprov⟩ :=
        sync_of_unregistered env₀ [] cmaddonName (hall env₀ (by simp)) rfl
      have hrest := syncAll_of_registered envs (mapSet [] cmaddonName env₀.withCancel)
        cmaddonName env₀.withCancel (mapGet_mapSet_self [] cmaddonName env₀.withCancel)
        (fun env' he' => hall env' (by simp [he']))
      simp only [syncAll, hs]
      rw [hrest.1, List.filter_append, List.filter_append, hrest.2,
        (filter_isStart_of_provisioning effects hprov).1]
      exact ⟨rfl, by simp [mapSet, mapDelete]⟩

/-- C5 on three passes for `syncer-ws1`, begun with the empty map: one `Start`
call, made by the first pass, and one entry in the map. -/
theorem sync_at_most_one_agent_witness :
    ((syncAll [sampleEnv (.ok (sampleAddon none [cmaddonFinalizer])) 1,
        sampleEnv (.ok (sampleAddon none [cmaddonFinalizer])) 2,
        sampleEnv (.ok (sampleAddon none [cmaddonFinalizer])) 3] [] "syncer-ws1").1.filter
      Effect.isStart).length = 1 ∧
    ((syncAll [sampleEnv (.ok (sampleAddon none [cmaddonFinalizer])) 1,
        sampleEnv (.ok (sampleAddon none [cmaddonFinalizer])) 2,
        sampleEnv (.ok (sampleAddon none [cmaddonFinalizer])) 3] [] "syncer-ws1").2.filter
      (fun entry => decide (entry.1 = "syncer-ws1"))).length = 1 :=
  (sync_at_most_one_agent (sampleEnv (.ok (sampleAddon none [cmaddonFinalizer])) 1)
    [sampleEnv (.ok (sampleAddon none [cmaddonFinalizer])) 1,
      sampleEnv (.ok (sampleAddon none [cmaddonFinalizer])) 2,
      sampleEnv (.ok (sampleAddon none [cmaddonFinalizer])) 3] [] "syncer-ws1").2.2
    (by decide)
    (by
      intro env' he'
      have hp : ∀ c, Provisions (sampleEnv (.ok (sampleAddon none [cmaddonFinalizer])) c)
          "syncer-ws1" := fun c =>
        ⟨sampleAddon none [cmaddonFinalizer], rfl, rfl, rfl, by simp [sampleAddon], rfl⟩
      simp only [List.mem_cons, List.mem_singleton, List.not_mem_nil, or_false] at he'
      rcases he' with rfl | rfl | rfl <;> exact hp _)

/-- C6 fails on the code: on a provisioned `syncer-ws1` with nothing stored under
its name, a pass in which `addonmanager.New` and `mgr.Start` both report an error
still returns no error and stores the cancel function under the name. -/
theorem sync_ignores_agent_start_failure :
    sampleStartFailure.newManager = some (Error.other "no manager") ∧
    sampleStartFailure.start = some (Error.other "no client") ∧
    mapGet [] "syncer-ws1" = none ∧
    (sync sampleStartFailure [] "syncer-ws1").err = none ∧
    mapGet (sync sampleStartFailure [] "syncer-ws1").registry "syncer-ws1" = some 1 := by
  decide

/-- C10, as stated, fails: let two calls for `syncer-ws1` start with an empty
map, and let both read the map (line 133) before either writes it (line 142).
Both calls run to their end, `Start` is called twice, and the map keeps only the
cancel function of the call that wrote last. -/
theorem overlapping_sync_starts_two_agents :
    (runSchedule "syncer-ws1" (twoCalls [] 1 2)
      [false, true, false, false, true, true]).first.pc = Pc.done ∧
    (runSchedule "syncer-ws1" (twoCalls [] 1 2)
      [false, true, false, false, true, true]).second.pc = Pc.done ∧
    (runSchedule "syncer-ws1" (twoCalls [] 1 2)
      [false, true, false, false, true, true]).shared.effects.filter Effect.isStart =
        [Effect.start "syncer-ws1" 1, Effect.start "syncer-ws1" 2] ∧
    (runSchedule "syncer-ws1" (twoCalls [] 1 2)
      [false, true, false, false, true, true]).shared.registry = [("syncer-ws1", 2)] := by
  decide

/-- C10, amended. A call that runs lines 133-142 alone does what `sync` does
after provisioning; and when two calls for one name, on a provisioned resource
with nothing stored under the name, do not overlap (one runs lines 133-142 to
the end before the other reads the map), whichever goes first, both return,
`Start` is called exactly once and the map ends with exactly one entry for the
name, the cancel function of the call that went first. -/
theorem serial_sync_starts_one_agent (env : Env) (reg : SyncerAddonMap)
    (cmaddonName : String) (cancel₁ cancel₂ : CancelFunc) (who : Bool)
    (hp : Provisions env cmaddonName) (hreg : mapGet reg cmaddonName = none) :
    (∃ effects, (∀ e ∈ effects, e.isProvisioning = true) ∧
      (sync env reg cmaddonName).effects = effects ++
        (runSchedule cmaddonName (twoCalls reg env.withCancel cancel₂)
          [false, false, false]).shared.effects ∧
      (sync env reg cmaddonName).registry =
        (runSchedule cmaddonName (twoCalls reg env.withCancel cancel₂)
          [false, false, false]).shared.registry) ∧
    (runSchedule cmaddonName (twoCalls reg cancel₁ cancel₂)
      [who, who, who, !who, !who, !who]).first.pc = Pc.done ∧
    (runSchedule cmaddonName (twoCalls reg cancel₁ cancel₂)
      [who, who, who, !who, !who, !who]).second.pc = Pc.done ∧
    ((runSchedule cmaddonName (twoCalls reg cancel₁ cancel₂)
      [who, who, who, !who, !who, !who]).shared.effects.filter Effect.isStart).length = 1 ∧
    ((runSchedule cmaddonName (twoCalls reg cancel₁ cancel₂)
      [who, who, who, !who, !who, !who]).shared.registry.filter
        (fun entry => decide (entry.1 = cmaddonName))).length = 1 ∧
    mapGet (runSchedule cmaddonName (twoCalls reg cancel₁ cancel₂)
      [who, who, who, !who, !who, !who]).shared.registry cmaddonName =
        some (if who then cancel₂ else cancel₁) := by
  have hset : ∀ c, mapGet (mapSet reg cmaddonName c) cmaddonName = some c :=
    fun c => mapGet_mapSet_self reg cmaddonName c
  have hcount : ∀ c, ((mapSet reg cmaddonName c).filter
      (fun entry => decide (entry.1 = cmaddonName))).length = 1 := by
    intro c
    simp [mapSet, mapDelete, List.filter_filter]
  refine ⟨?_, ?_⟩
  · obtain ⟨effects, hs, hprov⟩ := sync_of_unregistered env reg cmaddonName hp hreg
    refine ⟨effects, hprov, ?_, ?_⟩ <;> rw [hs] <;>
      simp [runSchedule, systemStep, workerStep, twoCalls, hreg]
  · cases who <;>
      simp only [runSchedule, List.foldl, systemStep, workerStep, twoCalls, hreg, hset,
        Bool.not_true, Bool.not_false, if_true, if_false, Bool.false_eq_true, hcount,
        true_and, and_true] <;>
      rfl

/-- C10, amended, on `syncer-ws1` with the second call going first: one `Start`
call, by the second call, whose cancel function is the one stored. -/
theorem serial_sync_starts_one_agent_witness :
    ((runSchedule "syncer-ws1" (twoCalls [] 1 2)
      [true, true, true, false, false, false]).shared.effects.filter Effect.isStart).length = 1 ∧
    mapGet (runSchedule "syncer-ws1" (twoCalls [] 1 2)
      [true, true, true, false, false, false]).shared.registry "syncer-ws1" = some 2 :=
  ⟨(serial_sync_starts_one_agent (sampleEnv (.ok (sampleAddon none [cmaddonFinalizer])) 1) []
      "syncer-ws1" 1 2 true
      ⟨sampleAddon none [cmaddonFinalizer], rfl, rfl, rfl, by simp [sampleAddon], rfl⟩
      rfl).2.2.2.1,
   (serial_sync_starts_one_agent (sampleEnv (.ok (sampleAddon none [cmaddonFinalizer])) 1) []
      "syncer-ws1" 1 2 true
      ⟨sampleAddon none [cmaddonFinalizer], rfl, rfl, rfl, by simp [sampleAddon], rfl⟩
      rfl).2.2.2.2.2⟩

end AddonManagement
